import Mathlib

/-!
Verification of the django-crm `crm` application (models.py and forms.py)
against its natural-language specification.  The Python code is shallowly
embedded: model rows become Lean structures, database state becomes explicit
lists of rows, and each method under scrutiny becomes a pure Lean function
returning the updated state.
-/

namespace Crm

/-! ### Decimal rendering of naturals (for numeric slug suffixes) -/

/-- The decimal digit character for `d` (meaningful for `d < 10`). -/
def digitChar (d : Nat) : Char := Char.ofNat (48 + d)

/-- Little-endian decimal digits of `n`, computed with explicit fuel so the
definition is structurally recursive. -/
def natDigitsAux : Nat → Nat → List Char
  | 0, _ => []
  | fuel + 1, n => if n = 0 then [] else digitChar (n % 10) :: natDigitsAux fuel (n / 10)

/-- Decimal rendering of a natural number (`renderNat 0 = "0"`). -/
def renderNat (n : Nat) : String :=
  if n = 0 then "0" else ⟨(natDigitsAux n n).reverse⟩

/-- Value of a little-endian digit list. -/
def digitsVal : List Char → Nat
  | [] => 0
  | c :: cs => (c.toNat - 48) + 10 * digitsVal cs

theorem digitChar_toNat {d : Nat} (h : d < 10) : (digitChar d).toNat = 48 + d := by
  interval_cases d <;> rfl

theorem digitsVal_natDigitsAux : ∀ fuel n, n ≤ fuel → digitsVal (natDigitsAux fuel n) = n := by
  intro fuel
  induction fuel with
  | zero => intro n h; simp_all [natDigitsAux, digitsVal, Nat.le_zero.mp h]
  | succ fuel ih =>
    intro n h
    by_cases h0 : n = 0
    · simp [natDigitsAux, h0, digitsVal]
    · have hdiv : n / 10 ≤ fuel := by
        have : n / 10 < n := Nat.div_lt_self (Nat.pos_of_ne_zero h0) (by decide)
        omega
      simp only [natDigitsAux, h0, if_false, digitsVal, ih _ hdiv,
        digitChar_toNat (Nat.mod_lt n (by decide))]
      omega

/-- Recover `n` from `renderNat n`: the rendering is lossless. -/
theorem renderNat_leftInverse (n : Nat) :
    digitsVal (renderNat n).data.reverse = n := by
  by_cases h0 : n = 0
  · subst h0; rfl
  · simp only [renderNat, h0, if_false]
    show digitsVal (natDigitsAux n n).reverse.reverse = n
    rw [List.reverse_reverse]
    exact digitsVal_natDigitsAux n n le_rfl

theorem renderNat_injective : Function.Injective renderNat := by
  intro a b h
  have := renderNat_leftInverse a
  rw [h, renderNat_leftInverse b] at this
  exact this.symm

theorem renderNat_ne_empty (n : Nat) : (renderNat n).data ≠ [] := by
  by_cases h0 : n = 0
  · subst h0; simp [renderNat]
  · obtain ⟨m, rfl⟩ := Nat.exists_eq_succ_of_ne_zero h0
    simp [renderNat, natDigitsAux]

/-! ### `slugify` and `slugify_uniquely`

Modelled from the spec: the helpers `slugify` and `slugify_uniquely` come
from an external utility library (`caktus.django.db.util`) whose code is not
part of this repository.  The spec describes them as deriving a slug from a
name and, on collision with existing rows, running "a simple collision-suffix
loop" that appends a numeric suffix until the slug is free. -/

/-- Modelled from the spec: turn a name into a slug (lower-case it, turn
spaces into hyphens, drop other non-alphanumeric characters). -/
def slugify (s : String) : String :=
  ⟨(s.data.map (fun c => if c = ' ' then '-' else c.toLower)).filter
      (fun c => c.isAlphanum || c == '-')⟩

/-- The `k`-th candidate slug for a base slug: the base itself, then the base
with numeric suffixes `-1`, `-2`, ... -/
def slugCandidate (base : String) : Nat → String
  | 0 => base
  | k + 1 => base ++ "-" ++ renderNat (k + 1)

/-- The collision-suffix loop: starting at candidate index `k`, return the
first candidate index whose slug is not taken, giving up (and returning the
current index) when the fuel runs out. -/
def searchFree (base : String) (taken : List String) : Nat → Nat → Nat
  | 0, k => k
  | fuel + 1, k =>
    if slugCandidate base k ∈ taken then searchFree base taken fuel (k + 1) else k

/-- Modelled from the spec: `slugify_uniquely(name, queryset, field)` slugifies
`name` and appends a numeric suffix until the result differs from the `field`
value of every row of `queryset` (here: from every string in `taken`). -/
def slugify_uniquely (name : String) (taken : List String) : String :=
  let base := slugify name
  slugCandidate base (searchFree base taken (taken.length + 1) 0)

theorem string_data_injective : Function.Injective String.data := by
  intro ⟨a⟩ ⟨b⟩ h
  exact congrArg String.mk h

theorem slugCandidate_injective (base : String) :
    Function.Injective (slugCandidate base) := by
  intro j k h
  match j, k with
  | 0, 0 => rfl
  | 0, k + 1 =>
    exfalso
    have hd := congrArg String.data h
    have : base.data = (base.data ++ '-' :: (renderNat (k + 1)).data) := by
      simpa [slugCandidate, String.data_append] using hd
    have hlen := congrArg List.length this
    simp at hlen
  | j + 1, 0 =>
    exfalso
    have hd := congrArg String.data h
    have : (base.data ++ '-' :: (renderNat (j + 1)).data) = base.data := by
      simpa [slugCandidate, String.data_append] using hd
    have hlen := congrArg List.length this
    simp at hlen
  | j + 1, k + 1 =>
    have hd := congrArg String.data h
    have hl : base.data ++ '-' :: (renderNat (j + 1)).data
        = base.data ++ '-' :: (renderNat (k + 1)).data := by
      simpa [slugCandidate, String.data_append] using hd
    have h2 : (renderNat (j + 1)).data = (renderNat (k + 1)).data := by
      have := List.append_cancel_left hl
      simpa using this
    have := renderNat_injective (string_data_injective h2)
    omega

/-- Among the first `taken.length + 1` candidate slugs, at least one is free. -/
theorem exists_free_candidate (base : String) (taken : List String) :
    ∃ j, j < taken.length + 1 ∧ slugCandidate base j ∉ taken := by
  by_contra hcon
  push_neg at hcon
  set L := (List.range (taken.length + 1)).map (slugCandidate base) with hL
  have hnd : L.Nodup := (List.nodup_range _).map (slugCandidate_injective base)
  have hsub : L.toFinset ⊆ taken.toFinset := by
    intro x hx
    rw [List.mem_toFinset] at hx ⊢
    rw [hL, List.mem_map] at hx
    obtain ⟨j, hj, rfl⟩ := hx
    exact hcon j (List.mem_range.mp hj)
  have h1 : L.toFinset.card = taken.length + 1 := by
    rw [List.toFinset_card_of_nodup hnd, hL]
    simp
  have h2 := Finset.card_le_card hsub
  have h3 := List.toFinset_card_le (l := taken)
  omega

theorem searchFree_spec (base : String) (taken : List String) :
    ∀ fuel k, (∃ j, j < fuel ∧ slugCandidate base (k + j) ∉ taken) →
      slugCandidate base (searchFree base taken fuel k) ∉ taken := by
  intro fuel
  induction fuel with
  | zero => intro k ⟨j, hj, _⟩; omega
  | succ fuel ih =>
    intro k ⟨j, hj, hfree⟩
    by_cases hk : slugCandidate base k ∈ taken
    · simp only [searchFree, hk, if_true]
      apply ih
      match j, hfree with
      | 0, hfree => exact absurd hk (by simpa using hfree)
      | j + 1, hfree =>
        exact ⟨j, by omega, by have : k + 1 + j = k + (j + 1) := by omega
                               rw [this]; exact hfree⟩
    · simpa [searchFree, hk] using hk

/-- The slug produced by `slugify_uniquely` differs from every taken slug. -/
theorem slugify_uniquely_not_mem (name : String) (taken : List String) :
    slugify_uniquely name taken ∉ taken := by
  obtain ⟨j, hj, hfree⟩ := exists_free_candidate (slugify name) taken
  exact searchFree_spec (slugify name) taken (taken.length + 1) 0
    ⟨j, hj, by simpa using hfree⟩

/-! ### Data model

Rows of the relevant tables, embedded as structures.  Foreign keys are
represented as ids (or, where a method dereferences them, the referenced row
is passed explicitly); many-to-many relations are lists. -/

/-- `DEFAULT_ACCOUNT_ACTIVATION_DAYS` from `crm/models.py`. -/
def DEFAULT_ACCOUNT_ACTIVATION_DAYS : Nat := 15

/-- `getattr(settings, 'ACCOUNT_ACTIVATION_DAYS', DEFAULT_ACCOUNT_ACTIVATION_DAYS)`:
the configured activation window in days, with the default applied when the
setting is absent. -/
def accountActivationDays (settingsDays : Option Nat) : Nat :=
  settingsDays.getD DEFAULT_ACCOUNT_ACTIVATION_DAYS

/-- Timestamps are naturals counting seconds; a `datetime.timedelta(days = d)`
is `d * secondsPerDay` seconds. -/
def secondsPerDay : Nat := 86400

/-- Modelled from the spec: the `Business` side of the
`businesses__business_types__name` lookup used by the forms.  The `Business`
model itself is not in the two source files (the repository is mid-refactor);
the spec describes a business as carrying a set of business types, each with a
name. -/
structure Business where
  id : Nat
  business_type_names : List String
deriving Repr, DecidableEq

/-- A row of `crm.Contact` (the fields the verified methods touch), plus the
reverse relations the forms filter on: the businesses the contact is
associated with and the profile attached to it. -/
structure Contact where
  id : Nat
  userId : Option Nat
  first_name : String
  last_name : String
  email : String
  businesses : List Business
  profileId : Option Nat
deriving Repr, DecidableEq

/-- `Contact.get_full_name`: `"%s %s" % (self.first_name, self.last_name)`. -/
def Contact.get_full_name (c : Contact) : String :=
  c.first_name ++ " " ++ c.last_name

/-- A row of the framework's user table, with the reverse relations the email
form filters on (`projects` and `businesses` memberships, as ids). -/
structure User where
  id : Nat
  username : String
  first_name : String
  last_name : String
  email : String
  password : String
  is_active : Bool
  projects : List Nat
  businesses : List Nat
deriving Repr, DecidableEq

/-- A row of `crm.LoginRegistration` (its `contact` foreign key is passed
explicitly to the methods that dereference it). -/
structure LoginRegistration where
  date : Nat
  activation_key : String
  activated : Bool
deriving Repr, DecidableEq

/-- `LoginRegistration.has_expired`:
`(self.date + datetime.timedelta(days = expiration)) <= datetime.datetime.now()`. -/
def LoginRegistration.has_expired (settingsDays : Option Nat)
    (reg : LoginRegistration) (now : Nat) : Bool :=
  decide (reg.date + accountActivationDays settingsDays * secondsPerDay ≤ now)

/-- A fresh primary key for the user table: one more than the largest id. -/
def freshUserId (users : List User) : Nat :=
  (users.map (fun u => u.id)).foldr max 0 + 1

/-- `User.objects.create_user(username, email, password)`: insert a fresh user
row (active, with empty name fields) and return it with the new table. -/
def create_user (users : List User) (username email password : String) :
    User × List User :=
  let u : User := { id := freshUserId users, username := username,
                    first_name := "", last_name := "", email := email,
                    password := password, is_active := true,
                    projects := [], businesses := [] }
  (u, u :: users)

/-- `user.save()` on an existing row: replace the row with the same id. -/
def dbSaveUser (u : User) (users : List User) : List User :=
  users.map (fun v => if v.id = u.id then u else v)

/-- The state produced by `LoginRegistration.activate`. -/
structure ActivateResult where
  returned : User
  contact : Contact
  registration : LoginRegistration
  users : List User
deriving Repr, DecidableEq

/-- `LoginRegistration.activate(password)`: derive a unique username from the
contact's full name, create the user, copy the contact's first and last name
onto it, activate it, link it to the contact, mark the registration activated
and return `self.contact.user`. -/
def LoginRegistration.activate (reg : LoginRegistration) (contact : Contact)
    (users : List User) (password : String) : ActivateResult :=
  let username := slugify_uniquely contact.get_full_name (users.map (fun u => u.username))
  let created := create_user users username contact.email password
  let user := { created.1 with first_name := contact.first_name,
                               last_name := contact.last_name,
                               is_active := true }
  let users2 := dbSaveUser user created.2
  let contact2 := { contact with userId := some user.id }
  let reg2 := { reg with activated := true }
  { returned := user, contact := contact2, registration := reg2, users := users2 }

theorem mem_le_foldr_max (l : List Nat) (x : Nat) (h : x ∈ l) :
    x ≤ l.foldr max 0 := by
  induction l with
  | nil => cases h
  | cons a l ih =>
    rcases List.mem_cons.mp h with rfl | h
    · exact Nat.le_max_left _ _
    · exact Nat.le_trans (ih h) (Nat.le_max_right _ _)

/-- The id chosen by `create_user` is fresh. -/
theorem freshUserId_not_used (users : List User) :
    ∀ u ∈ users, u.id ≠ freshUserId users := by
  intro u hu
  have := mem_le_foldr_max (users.map (fun u => u.id)) u.id
    (List.mem_map.mpr ⟨u, hu, rfl⟩)
  simp only [freshUserId]
  omega

/-- What one `activate` call does, spelled out once and shared by the
registration claims. -/
theorem activate_effect (reg : LoginRegistration) (contact : Contact)
    (users : List User) (password : String) :
    (reg.activate contact users password).registration.activated = true ∧
    (reg.activate contact users password).returned ∈
      (reg.activate contact users password).users ∧
    (reg.activate contact users password).returned.first_name = contact.first_name ∧
    (reg.activate contact users password).returned.last_name = contact.last_name ∧
    (∀ u ∈ users, u.id ≠ (reg.activate contact users password).returned.id) ∧
    (reg.activate contact users password).contact.userId =
      some (reg.activate contact users password).returned.id ∧
    (reg.activate contact users password).users.length = users.length + 1 := by
  refine ⟨rfl, ?_, rfl, rfl, ?_, rfl, ?_⟩
  · simp only [LoginRegistration.activate, create_user, dbSaveUser, List.map_cons,
      if_pos rfl]
    exact List.mem_cons_self _ _
  · intro u hu
    exact freshUserId_not_used users u hu
  · simp [LoginRegistration.activate, create_user, dbSaveUser]

/-! ### `RelationshipType` -/

/-- A row of `crm.RelationshipType`.  `id` is `none` for an instance that has
not been saved yet (Python: `self.id` is falsy). -/
structure RelationshipType where
  id : Option Nat
  name : String
  slug : String
deriving Repr, DecidableEq

/-- A fresh primary key for the `RelationshipType` table. -/
def freshRowId (rows : List RelationshipType) : Nat :=
  (rows.map (fun r => r.id.getD 0)).foldr max 0 + 1

/-- `RelationshipType.save`: build the queryset of all rows (excluding the row
being updated when `self.id` is set), derive a unique slug from `self.name`
against that queryset, then persist (update in place, or insert with a fresh
id). -/
def RelationshipType.save (self : RelationshipType) (rows : List RelationshipType) :
    RelationshipType × List RelationshipType :=
  let queryset :=
    if self.id.isSome then rows.filter (fun r => decide (r.id ≠ self.id)) else rows
  let self2 := { self with
    slug := slugify_uniquely self.name (queryset.map (fun r => r.slug)) }
  if self.id.isSome then
    (self2, rows.map (fun r => if r.id = self.id then self2 else r))
  else
    let self3 := { self2 with id := some (freshRowId rows) }
    (self3, self3 :: rows)

theorem map_id_on {α : Type} (f : α → α) :
    ∀ l : List α, (∀ x ∈ l, f x = x) → l.map f = l := by
  intro l
  induction l with
  | nil => intro _; rfl
  | cons a l ih =>
    intro h
    simp only [List.map_cons, h a (List.mem_cons_self a l),
      ih (fun x hx => h x (List.mem_cons_of_mem a hx))]

/-- Replacing (at most) the one row whose id is `i` by a row whose slug avoids
every other row's slug keeps the slugs pairwise distinct. -/
theorem nodup_slugs_update (i : Option Nat) (s : RelationshipType) :
    ∀ rows : List RelationshipType,
      (rows.map (fun r => r.id)).Nodup →
      (rows.map (fun r => r.slug)).Nodup →
      s.slug ∉ (rows.filter (fun r => decide (r.id ≠ i))).map (fun r => r.slug) →
      ((rows.map (fun r => if r.id = i then s else r)).map (fun r => r.slug)).Nodup := by
  intro rows
  induction rows with
  | nil => intro _ _ _; simp
  | cons r rest ih =>
    intro hid hslug hfree
    simp only [List.map_cons, List.nodup_cons] at hid hslug
    by_cases hri : r.id = i
    · have hrest : rest.map (fun x => if x.id = i then s else x) = rest := by
        apply map_id_on
        intro x hx
        have hxi : x.id ≠ i := by
          intro hxe
          exact hid.1 (List.mem_map.mpr ⟨x, hx, by rw [hxe, hri]⟩)
        simp [hxi]
      have hrfilter : (r :: rest).filter (fun x => decide (x.id ≠ i))
          = rest.filter (fun x => decide (x.id ≠ i)) := by
        simp [List.filter_cons, hri]
      rw [hrfilter] at hfree
      simp only [List.map_cons, if_pos hri, hrest, List.nodup_cons]
      refine ⟨?_, hslug.2⟩
      intro hmem
      obtain ⟨x, hx, hxs⟩ := List.mem_map.mp hmem
      have hxi : x.id ≠ i := by
        intro hxe
        exact hid.1 (List.mem_map.mpr ⟨x, hx, by rw [hxe, hri]⟩)
      exact hfree (List.mem_map.mpr ⟨x, List.mem_filter.mpr ⟨hx, by simp [hxi]⟩, hxs⟩)
    · have hrfilter : (r :: rest).filter (fun x => decide (x.id ≠ i))
          = r :: rest.filter (fun x => decide (x.id ≠ i)) := by
        simp [List.filter_cons, hri]
      rw [hrfilter, List.map_cons, List.mem_cons, not_or] at hfree
      simp only [List.map_cons, if_neg hri, List.nodup_cons]
      refine ⟨?_, ih hid.2 hslug.2 hfree.2⟩
      intro hmem
      obtain ⟨y', hy', hys⟩ := List.mem_map.mp hmem
      obtain ⟨y, hy, rfl⟩ := List.mem_map.mp hy'
      by_cases hyi : y.id = i
      · rw [if_pos hyi] at hys
        exact hfree.1 hys
      · rw [if_neg hyi] at hys
        exact hslug.1 (List.mem_map.mpr ⟨y, hy, hys⟩)

/-! ### Registration claims (C1–C4) -/

/-- A sample contact shared by the concrete registration scenarios. -/
def sampleContact : Contact :=
  { id := 1, userId := none, first_name := "Jane", last_name := "Doe",
    email := "jane@example.com", businesses := [], profileId := none }

/-- A sample pending registration created at time 0. -/
def samplePendingReg : LoginRegistration :=
  { date := 0, activation_key := "key", activated := false }

/-- C1 (counterexample): at exactly 15 days of elapsed time the code reports
the registration expired, while the claim (expired iff elapsed time is
*strictly greater* than the activation day count) says it is not yet
expired. -/
theorem C1_counterexample :
    LoginRegistration.has_expired none samplePendingReg (15 * secondsPerDay) = true ∧
    ¬ (15 * secondsPerDay - samplePendingReg.date
        > accountActivationDays none * secondsPerDay) := by
  constructor
  · decide
  · decide

/-- C1 (amended): `has_expired()` returns true iff the elapsed time since
`date` is at least (`≥`, not strictly greater than) the configured activation
window `ACCOUNT_ACTIVATION_DAYS`, which defaults to 15 days; a registration
created on day 0 with the default window is hence not expired on day 14 and
expired on day 16 (and already on day 15). -/
theorem C1_has_expired_iff (d : Option Nat) (reg : LoginRegistration) (now : Nat)
    (h : reg.date ≤ now) :
    accountActivationDays none = 15 ∧
    (reg.has_expired d now = true ↔
      accountActivationDays d * secondsPerDay ≤ now - reg.date) := by
  refine ⟨rfl, ?_⟩
  simp only [LoginRegistration.has_expired, decide_eq_true_eq]
  omega

theorem C1_has_expired_iff_witness :
    samplePendingReg.date ≤ 16 * secondsPerDay ∧
    (accountActivationDays none = 15 ∧
      (samplePendingReg.has_expired none (16 * secondsPerDay) = true ↔
        accountActivationDays none * secondsPerDay ≤ 16 * secondsPerDay - samplePendingReg.date)) :=
  ⟨by decide, C1_has_expired_iff none samplePendingReg (16 * secondsPerDay) (by decide)⟩

/-- C2: activating a pending registration marks it activated, creates a new
user account (an id no existing user has) whose first and last name are the
contact's, links the contact to that account, and returns that account. -/
theorem C2_activate_provisions_account (reg : LoginRegistration) (contact : Contact)
    (users : List User) (password : String) (_hpending : reg.activated = false) :
    (reg.activate contact users password).registration.activated = true ∧
    (reg.activate contact users password).returned
      ∈ (reg.activate contact users password).users ∧
    (reg.activate contact users password).returned.first_name = contact.first_name ∧
    (reg.activate contact users password).returned.last_name = contact.last_name ∧
    (∀ u ∈ users, u.id ≠ (reg.activate contact users password).returned.id) ∧
    (reg.activate contact users password).contact.userId
      = some (reg.activate contact users password).returned.id := by
  obtain ⟨h1, h2, h3, h4, h5, h6, _⟩ := activate_effect reg contact users password
  exact ⟨h1, h2, h3, h4, h5, h6⟩

theorem C2_activate_provisions_account_witness :
    samplePendingReg.activated = false ∧
    ((samplePendingReg.activate sampleContact [] "pw").registration.activated = true ∧
     (samplePendingReg.activate sampleContact [] "pw").returned
       ∈ (samplePendingReg.activate sampleContact [] "pw").users ∧
     (samplePendingReg.activate sampleContact [] "pw").returned.first_name
       = sampleContact.first_name ∧
     (samplePendingReg.activate sampleContact [] "pw").returned.last_name
       = sampleContact.last_name ∧
     (∀ u ∈ ([] : List User),
       u.id ≠ (samplePendingReg.activate sampleContact [] "pw").returned.id) ∧
     (samplePendingReg.activate sampleContact [] "pw").contact.userId
       = some (samplePendingReg.activate sampleContact [] "pw").returned.id) :=
  ⟨rfl, C2_activate_provisions_account samplePendingReg sampleContact [] "pw" rfl⟩

/-- C3: `activate` contains no expiration guard: on a registration for which
`has_expired()` is true it still succeeds, provisions the account, links it
and marks the registration activated. -/
theorem C3_activate_ignores_expiration (d : Option Nat) (reg : LoginRegistration)
    (contact : Contact) (users : List User) (password : String) (now : Nat)
    (_hexp : reg.has_expired d now = true) :
    (reg.activate contact users password).registration.activated = true ∧
    (reg.activate contact users password).returned
      ∈ (reg.activate contact users password).users ∧
    (reg.activate contact users password).contact.userId
      = some (reg.activate contact users password).returned.id := by
  obtain ⟨h1, h2, _, _, _, h6, _⟩ := activate_effect reg contact users password
  exact ⟨h1, h2, h6⟩

theorem C3_activate_ignores_expiration_witness :
    samplePendingReg.has_expired none (16 * secondsPerDay) = true ∧
    ((samplePendingReg.activate sampleContact [] "pw").registration.activated = true ∧
     (samplePendingReg.activate sampleContact [] "pw").returned
       ∈ (samplePendingReg.activate sampleContact [] "pw").users ∧
     (samplePendingReg.activate sampleContact [] "pw").contact.userId
       = some (samplePendingReg.activate sampleContact [] "pw").returned.id) :=
  ⟨by decide,
   C3_activate_ignores_expiration none samplePendingReg sampleContact [] "pw"
     (16 * secondsPerDay) (by decide)⟩

/-- C4 (counterexample): activation is not enforced to happen at most once —
calling `activate` on an already-activated registration provisions one more
user account (here the user table grows from one row to two). -/
theorem C4_counterexample :
    ({ date := 0, activation_key := "key", activated := true }
        : LoginRegistration).activated = true ∧
    (({ date := 0, activation_key := "key", activated := true }
        : LoginRegistration).activate sampleContact
      [{ id := 1, username := "jane-doe", first_name := "Jane", last_name := "Doe",
         email := "jane@example.com", password := "pw", is_active := true,
         projects := [], businesses := [] }] "pw").users.length = 2 := by
  exact ⟨rfl, rfl⟩

/-- C4 (amended): the `activated` flag is terminal in the sense that no
operation resets it to false — `activate` always ends with `activated = true`
whatever the prior state — but at-most-once activation is not enforced by the
code: every `activate` call, including one on an already-activated
registration, provisions one more user account; calling it only on pending,
unexpired registrations is the caller's obligation. -/
theorem C4_activated_terminal (reg : LoginRegistration) (contact : Contact)
    (users : List User) (password : String) :
    (reg.activate contact users password).registration.activated = true ∧
    (reg.activate contact users password).users.length = users.length + 1 := by
  obtain ⟨h1, _, _, _, _, _, h7⟩ := activate_effect reg contact users password
  exact ⟨h1, h7⟩

/-- C5: `RelationshipType.save()` assigns the instance a slug derived from its
name that is distinct from the slug of every other existing row — even when
its name collides with an existing row's name — and therefore keeps all
`RelationshipType` slugs pairwise distinct. -/
theorem C5_save_slug_unique (self : RelationshipType) (rows : List RelationshipType)
    (hid : (rows.map (fun r => r.id)).Nodup)
    (hslug : (rows.map (fun r => r.slug)).Nodup) :
    (∀ r ∈ rows, r.id ≠ self.id → r.slug ≠ (self.save rows).1.slug) ∧
    ((self.save rows).2.map (fun r => r.slug)).Nodup := by
  cases hself : self.id with
  | some i =>
    have hs : self.id.isSome = true := by rw [hself]; rfl
    set s2 : RelationshipType := { self with
      slug := slugify_uniquely self.name
        ((rows.filter (fun r => decide (r.id ≠ self.id))).map (fun r => r.slug)) }
      with hs2
    have h1 : (self.save rows).1 = s2 := by
      simp only [RelationshipType.save, hs, if_true]
    have h2 : (self.save rows).2
        = rows.map (fun r => if r.id = self.id then s2 else r) := by
      simp only [RelationshipType.save, hs, if_true]
    have hnot := slugify_uniquely_not_mem self.name
      ((rows.filter (fun r => decide (r.id ≠ self.id))).map (fun r => r.slug))
    constructor
    · intro r hr hne heq
      rw [h1] at heq
      apply hnot
      have hmem : r.slug ∈ (rows.filter (fun x => decide (x.id ≠ self.id))).map
          (fun x => x.slug) :=
        List.mem_map.mpr ⟨r, List.mem_filter.mpr
          ⟨hr, decide_eq_true (by rw [hself]; exact hne)⟩, rfl⟩
      rw [heq, hs2] at hmem
      exact hmem
    · rw [h2]
      exact nodup_slugs_update self.id s2 rows hid hslug hnot
  | none =>
    have hs : self.id.isSome = false := by rw [hself]; rfl
    set s2 : RelationshipType := { self with
      slug := slugify_uniquely self.name (rows.map (fun r => r.slug)) } with hs2
    set s3 : RelationshipType := { s2 with id := some (freshRowId rows) } with hs3
    have hq : (if self.id.isSome then rows.filter (fun r => decide (r.id ≠ self.id))
        else rows) = rows := by rw [hs, if_neg (by simp)]
    have h1 : (self.save rows).1 = s3 := by
      simp only [RelationshipType.save, hs, hq, Bool.false_eq_true, if_false]
    have h2 : (self.save rows).2 = s3 :: rows := by
      simp only [RelationshipType.save, hs, hq, Bool.false_eq_true, if_false]
    have hnot := slugify_uniquely_not_mem self.name (rows.map (fun r => r.slug))
    constructor
    · intro r hr _ heq
      rw [h1] at heq
      apply hnot
      have hmem : r.slug ∈ rows.map (fun x => x.slug) :=
        List.mem_map.mpr ⟨r, hr, rfl⟩
      rw [heq, hs3, hs2] at hmem
      exact hmem
    · rw [h2, List.map_cons, List.nodup_cons]
      exact ⟨hnot, hslug⟩

theorem C5_save_slug_unique_witness :
    (([{ id := some 1, name := "Client", slug := "client" }]
        : List RelationshipType).map (fun r => r.id)).Nodup ∧
    (([{ id := some 1, name := "Client", slug := "client" }]
        : List RelationshipType).map (fun r => r.slug)).Nodup ∧
    ((∀ r ∈ ([{ id := some 1, name := "Client", slug := "client" }]
        : List RelationshipType),
      r.id ≠ ({ id := none, name := "Client", slug := "" } : RelationshipType).id →
      r.slug ≠ (({ id := none, name := "Client", slug := "" } : RelationshipType).save
        [{ id := some 1, name := "Client", slug := "client" }]).1.slug) ∧
    ((({ id := none, name := "Client", slug := "" } : RelationshipType).save
        [{ id := some 1, name := "Client", slug := "client" }]).2.map
          (fun r => r.slug)).Nodup) :=
  ⟨by decide, by decide,
   C5_save_slug_unique { id := none, name := "Client", slug := "" }
     [{ id := some 1, name := "Client", slug := "client" }] (by decide) (by decide)⟩

/-! ### Forms -/

/-- `PersonForm.clean_email`: for a form bound to no existing instance, reject
the email when some existing user already has it; otherwise return it
unchanged. -/
def clean_email (instanceId : Option Nat) (users : List User) (email : String) :
    Except String String :=
  if instanceId.isNone ∧ (users.filter (fun u => decide (u.email = email))).length > 0 then
    Except.error "A user with that e-mail address already exists."
  else
    Except.ok email

/-- C6: at signup (new person, no instance id) the email field fails
validation exactly when the submitted email equals some existing user's
email, and is returned unchanged exactly when no existing user has it. -/
theorem C6_clean_email_duplicate (users : List User) (email : String) :
    (clean_email none users email
        = Except.error "A user with that e-mail address already exists."
      ↔ ∃ u ∈ users, u.email = email) ∧
    (clean_email none users email = Except.ok email ↔ ∀ u ∈ users, u.email ≠ email) := by
  have key : (0 < (users.filter (fun u => decide (u.email = email))).length)
      ↔ ∃ u ∈ users, u.email = email := by
    rw [List.length_pos_iff_exists_mem]
    constructor
    · rintro ⟨u, hu⟩
      rw [List.mem_filter] at hu
      exact ⟨u, hu.1, of_decide_eq_true hu.2⟩
    · rintro ⟨u, hu, he⟩
      exact ⟨u, List.mem_filter.mpr ⟨hu, decide_eq_true he⟩⟩
  by_cases hpos : 0 < (users.filter (fun u => decide (u.email = email))).length
  · have hcond : (none : Option Nat).isNone
        ∧ (users.filter (fun u => decide (u.email = email))).length > 0 := ⟨rfl, hpos⟩
    have hval : clean_email none users email
        = Except.error "A user with that e-mail address already exists." := by
      simp only [clean_email]
      rw [if_pos hcond]
    have hex := key.mp hpos
    constructor
    · exact iff_of_true hval hex
    · constructor
      · intro h
        rw [hval] at h
        cases h
      · intro hall
        obtain ⟨u, hu, he⟩ := hex
        exact absurd he (hall u hu)
  · have hcond : ¬ ((none : Option Nat).isNone
        ∧ (users.filter (fun u => decide (u.email = email))).length > 0) :=
      fun h => hpos h.2
    have hval : clean_email none users email = Except.ok email := by
      simp only [clean_email]
      rw [if_neg hcond]
    have hnone : ∀ u ∈ users, u.email ≠ email := by
      intro u hu he
      exact hpos (key.mpr ⟨u, hu, he⟩)
    constructor
    · constructor
      · intro h
        rw [hval] at h
        cases h
      · intro hex
        exact absurd hex (fun hex => hpos (key.mpr hex))
    · exact iff_of_true hval hnone

/-- The choice label `"%s (%s)" % (user.get_full_name(), user.email)`. -/
def choiceLabel (u : User) : String :=
  u.first_name ++ " " ++ u.last_name ++ " (" ++ u.email ++ ")"

/-- `EmailForm.__init__`: when a project is given the search is the users of
that project (business contacts are ignored); otherwise, when a business is
given, the users of that business; with a search set, the `to` choices are
rebuilt from the matching users, else the field's prior choices are kept. -/
def EmailForm.initChoices (project : Option Nat) (business : Option Nat)
    (users : List User) (prior : List (Nat × String)) : List (Nat × String) :=
  let search : Option (User → Bool) :=
    match project, business with
    | some p, _ => some (fun u => decide (p ∈ u.projects))
    | none, some b => some (fun u => decide (b ∈ u.businesses))
    | none, none => none
  match search with
  | some f => (users.filter f).map (fun u => (u.id, choiceLabel u))
  | none => prior

/-- C7: constructed with a project (resp. business) argument, the `to` choice
ids are exactly the ids of the users who are members of that project (resp.
business); an id outside that member set is never among the choices. -/
theorem C7_email_choices_restricted (users : List User) (prior : List (Nat × String))
    (uid : Nat) :
    (∀ p, uid ∈ (EmailForm.initChoices (some p) none users prior).map Prod.fst ↔
      ∃ u ∈ users, u.id = uid ∧ p ∈ u.projects) ∧
    (∀ b, uid ∈ (EmailForm.initChoices none (some b) users prior).map Prod.fst ↔
      ∃ u ∈ users, u.id = uid ∧ b ∈ u.businesses) := by
  constructor
  · intro p
    simp only [EmailForm.initChoices, List.map_map, List.mem_map, Function.comp,
      List.mem_filter, decide_eq_true_eq]
    constructor
    · rintro ⟨u, ⟨hu, hp⟩, huid⟩
      exact ⟨u, hu, huid, hp⟩
    · rintro ⟨u, hu, huid, hp⟩
      exact ⟨u, ⟨hu, hp⟩, huid⟩
  · intro b
    simp only [EmailForm.initChoices, List.map_map, List.mem_map, Function.comp,
      List.mem_filter, decide_eq_true_eq]
    constructor
    · rintro ⟨u, ⟨hu, hb⟩, huid⟩
      exact ⟨u, hu, huid, hb⟩
    · rintro ⟨u, hu, huid, hb⟩
      exact ⟨u, ⟨hu, hb⟩, huid⟩

/-- C9: constructed with both a project and a business, the project takes
precedence — the choices are the same as with no business given. -/
theorem C9_project_overrides_business (p b : Nat) (users : List User)
    (prior : List (Nat × String)) :
    EmailForm.initChoices (some p) (some b) users prior
      = EmailForm.initChoices (some p) none users prior := rfl

/-- A row of `crm.Project` (the fields the interaction form touches). -/
structure Project where
  id : Nat
  name : String
  contacts : List Contact
deriving Repr, DecidableEq

/-- The `__iexact` lookup: case-insensitive string equality. -/
def iexact (a b : String) : Bool :=
  a.data.map Char.toLower == b.data.map Char.toLower

/-- `businesses__business_types__name__iexact='client'`: the contact is
associated with a business one of whose business types is named `client`,
case-insensitively. -/
def isClientContact (c : Contact) : Bool :=
  c.businesses.any (fun b => b.business_type_names.any (fun n => iexact n "client"))

/-- `InteractionForm.__init__`, the project-queryset computation: for a new
interaction (no instance id) with a person, the projects having a contact
with that person's profile; for an existing interaction, the projects sharing
a contact (by id) with the interaction's client-business-typed contacts;
otherwise no projects. -/
def InteractionForm.projectChoices (instanceId : Option Nat) (person : Option Nat)
    (instanceContacts : List Contact) (projects : List Project) : List Project :=
  if instanceId.isNone ∧ person.isSome then
    projects.filter (fun pr => pr.contacts.any (fun c => decide (c.profileId = person)))
  else if instanceId.isSome then
    let client_contacts := instanceContacts.filter isClientContact
    projects.filter (fun pr =>
      pr.contacts.any (fun c => client_contacts.any (fun cc => decide (cc.id = c.id))))
  else []

/-- A contact associated with a business of business type named `Client`. -/
def clientContact : Contact :=
  { id := 2, userId := none, first_name := "", last_name := "", email := "",
    businesses := [{ id := 5, business_type_names := ["Client"] }], profileId := none }

/-- A contact with no business association, attached to profile 7. -/
def plainContact : Contact :=
  { id := 1, userId := none, first_name := "", last_name := "", email := "",
    businesses := [], profileId := some 7 }

/-- A project whose only contact is `plainContact`. -/
def plainProject : Project :=
  { id := 10, name := "p", contacts := [plainContact] }

/-- A project whose only contact is `clientContact`. -/
def clientProject : Project :=
  { id := 11, name := "q", contacts := [clientContact] }

/-- C8 (counterexample): for a new interaction (no instance id) with a person,
a project none of whose contacts is client-business-typed is still offered as
a choice — that branch filters by the person's profile only. -/
theorem C8_counterexample :
    plainProject ∈ InteractionForm.projectChoices none (some 7) [] [plainProject] ∧
    plainProject.contacts.all (fun c => ! isClientContact c) = true := by
  exact ⟨by decide, by decide⟩

/-- C8 (amended): only the existing-interaction branch restricts projects by
client business type: when the form is bound to an existing interaction,
every project offered is among the given projects and has a contact sharing
its id with a client-business-typed contact of the interaction; for a new
interaction the projects are filtered by the person's profile with no client
restriction. -/
theorem C8_client_filter_existing (i : Nat) (person : Option Nat)
    (instanceContacts : List Contact) (projects : List Project) (pr : Project)
    (hmem : pr ∈ InteractionForm.projectChoices (some i) person
      instanceContacts projects) :
    pr ∈ projects ∧
    ∃ c ∈ pr.contacts, ∃ cc ∈ instanceContacts,
      isClientContact cc = true ∧ cc.id = c.id := by
  unfold InteractionForm.projectChoices at hmem
  rw [if_neg (by simp), if_pos (by simp)] at hmem
  rw [List.mem_filter] at hmem
  obtain ⟨hpr, hany⟩ := hmem
  rw [List.any_eq_true] at hany
  obtain ⟨c, hc, hany2⟩ := hany
  rw [List.any_eq_true] at hany2
  obtain ⟨cc, hcc, hcid⟩ := hany2
  rw [List.mem_filter] at hcc
  exact ⟨hpr, c, hc, cc, hcc.1, hcc.2, of_decide_eq_true hcid⟩

theorem C8_client_filter_existing_witness :
    clientProject ∈ InteractionForm.projectChoices (some 3) none
      [clientContact] [clientProject] ∧
    (clientProject ∈ [clientProject] ∧
     ∃ c ∈ clientProject.contacts, ∃ cc ∈ [clientContact],
       isClientContact cc = true ∧ cc.id = c.id) :=
  ⟨by decide,
   C8_client_filter_existing 3 none [clientContact] [clientProject] clientProject
     (by decide)⟩

/-- `instance.contacts.add(u)`: add a user id to a many-to-many set. -/
def m2mAdd (uid : Nat) (contacts : List Nat) : List Nat :=
  if uid ∈ contacts then contacts else contacts ++ [uid]

/-- `InteractionForm.save`: persist the instance, then — only when this save
created it — add the person's user and the crm user (when present) to its
contacts. -/
def InteractionForm.save (instanceId : Option Nat) (personUserId : Option Nat)
    (crmUserId : Option Nat) (submitted : List Nat) : List Nat :=
  let created := instanceId.isNone
  if created then
    let c1 := match personUserId with
      | some pu => m2mAdd pu submitted
      | none => submitted
    match crmUserId with
    | some cu => m2mAdd cu c1
    | none => c1
  else submitted

theorem mem_m2mAdd_self (uid : Nat) (l : List Nat) : uid ∈ m2mAdd uid l := by
  by_cases h : uid ∈ l
  · simp [m2mAdd, h]
  · simp [m2mAdd, h]

theorem mem_m2mAdd_of_mem (x uid : Nat) (l : List Nat) (h : x ∈ l) :
    x ∈ m2mAdd uid l := by
  by_cases hmem : uid ∈ l
  · simpa [m2mAdd, hmem] using h
  · simp only [m2mAdd, hmem, if_false, List.mem_append]
    exact Or.inl h

/-- C10: `InteractionForm.save` adds the person's user and the crm user to the
saved interaction's contacts only on creation: saving over an existing
interaction leaves the contact set exactly as submitted, while a creating
save contains both users. -/
theorem C10_save_adds_users_only_on_create (i : Nat) (personUserId crmUserId : Option Nat)
    (submitted : List Nat) (pu cu : Nat) :
    InteractionForm.save (some i) personUserId crmUserId submitted = submitted ∧
    pu ∈ InteractionForm.save none (some pu) (some cu) submitted ∧
    cu ∈ InteractionForm.save none (some pu) (some cu) submitted := by
  refine ⟨rfl, ?_, ?_⟩
  · exact mem_m2mAdd_of_mem pu cu (m2mAdd pu submitted) (mem_m2mAdd_self pu submitted)
  · exact mem_m2mAdd_self cu (m2mAdd pu submitted)

end Crm
